import Mathlib

/-!
# Verification of the ValenceRTDisplay V2 protocol engine

A shallow embedding of the core protocol engine of `ValenceRTDisplay_V2.ino`:
the MODBUS CRC-16 engine, the outgoing frame builders, the discovery pass,
the per-slot polling routine, the fixed-offset frame decoder, and the
synthetic data generator.

Modelling conventions:
* Byte buffers are `List Nat`; reading index `i` of a buffer is
  `byteAt data i = data.getD i 0 % 256`, encoding the C `byte` range
  invariant directly in the reader.
* C `float` fields are modelled as exact rationals (`ℚ`); the decoder only
  multiplies small integers by constant scale factors.
* `millis()` timestamps are `Nat` parameters threaded explicitly.
* Arduino `random(lo, hi)` is an oracle parameter
  `rand : Nat → Int → Int → Int`, where `rand k lo hi` stands for the k-th
  call of `random(lo, hi)` in a run of the routine under scrutiny.
* The serial environment is a function from bus address (or slot) to the
  byte list that arrives in response; reads that cap the buffer at 64 or
  128 bytes are modelled with `List.take`.
-/

namespace ValenceRT

/-- Read byte `i` of a buffer; out-of-range reads default to 0, and the
`% 256` encodes the C `byte` range invariant. -/
def byteAt (data : List Nat) (i : Nat) : Nat := data.getD i 0 % 256

/-- Unsigned little-endian 16-bit value at offsets `i`, `i+1`:
`(data[i+1] << 8) | data[i]`, where the OR of a multiple of 256 with a
value below 256 is addition. -/
def u16le (data : List Nat) (i : Nat) : Nat :=
  byteAt data (i + 1) * 256 + byteAt data i

/-- The C cast `(int16_t)` of a 16-bit value. -/
def toInt16 (x : Nat) : Int :=
  if x % 65536 < 32768 then (x % 65536 : Int) else (x % 65536 : Int) - 65536

/-- Signed little-endian 16-bit value at offsets `i`, `i+1`. -/
def i16le (data : List Nat) (i : Nat) : Int := toInt16 (u16le data i)

/-- The C cast `(int8_t)` of a byte. -/
def toInt8 (x : Nat) : Int :=
  if x % 256 < 128 then (x % 256 : Int) else (x % 256 : Int) - 256

/-! ## CRC engine (`calculateModbusCRC`, lines 518-532) -/

/-- One shift step of the CRC inner loop:
`if (crc & 1) crc = (crc >> 1) ^ 0xA001; else crc >>= 1;`. -/
def crcShift (crc : Nat) : Nat :=
  if crc % 2 = 1 then (crc / 2) ^^^ 0xA001 else crc / 2

/-- One byte of the CRC outer loop: `crc ^= data[i]` followed by eight
shift steps. -/
def crcByte (crc b : Nat) : Nat := crcShift^[8] (crc ^^^ b % 256)

/-- The function `calculateModbusCRC(data, length)`: seed `0xFFFF`, then fold `crcByte`
over the buffer (callers pass the prefix the C code passes via `length`). -/
def calculateModbusCRC (data : List Nat) : Nat := data.foldl crcByte 0xFFFF

/-- The CRC-16 algorithm exactly as the specification words it: seed
`0xFFFF`; for each input byte, XOR into the low byte of the running value,
then 8 iterations of "if low bit set, shift right and XOR `0xA001`; else
shift right" — written as an explicit double recursion to compare with
the source's fold. -/
def crcSpecRounds : Nat → Nat → Nat
  | c, 0 => c
  | c, j + 1 => crcSpecRounds (if c % 2 = 1 then (c / 2) ^^^ 0xA001 else c / 2) j

/-- Outer recursion of the spec-worded CRC. -/
def crcSpecGo : List Nat → Nat → Nat
  | [], c => c
  | b :: rest, c => crcSpecGo rest (crcSpecRounds (c ^^^ b % 256) 8)

/-- Spec-worded CRC over a whole buffer. -/
def crcSpec (data : List Nat) : Nat := crcSpecGo data 0xFFFF

/-! ## Outgoing frames (lines 236, 250-255, 382-387) -/

/-- The 6-byte wake-up unit `ff 43 06 06 42 46` (sent twice concatenated). -/
def initSeqHalf : List Nat := [0xFF, 0x43, 0x06, 0x06, 0x42, 0x46]

/-- The 12-byte wake-up sequence `initSeq` (line 236). -/
def initSeq : List Nat := initSeqHalf ++ initSeqHalf

/-- Fill the two trailing CRC bytes of a frame: the C code builds
`base ++ [0, 0]`, computes the CRC over `base`, and overwrites the last
two bytes with `crc & 0xFF` and `(crc >> 8) & 0xFF`. -/
def appendCRC (base : List Nat) : List Nat :=
  base ++ [calculateModbusCRC base % 256, calculateModbusCRC base / 256 % 256]

/-- Discovery poll frame `pollMsg` for a bus address (lines 250-255). -/
def buildPollFrame (addr : Nat) : List Nat :=
  appendCRC [0xFF, 0x50, 0x06, 0x00, addr % 256]

/-- Data request frame `dataRequest` for a slot (lines 382-387). -/
def buildDataRequest (slot : Nat) : List Nat :=
  appendCRC [0xFF, 0x61, 0x06, slot % 256, 0x00]

/-! ## Data model (`BatteryData`, registry globals) -/

/-- The `struct BatteryData` of lines 47-66; C floats are exact rationals here. -/
structure BatteryData where
  voltage : ℚ
  current : ℚ
  power : ℚ
  soc : ℤ
  temperature : ℚ
  cellVoltages : Fin 6 → ℚ
  current2 : ℚ
  cycles : Nat
  valid : Bool
  lastUpdate : Nat
  batteryID : String
deriving DecidableEq

/-- The process-wide mutable state the engine owns: `batteries`,
`activeBatteryCount`, `protocolInitialized`, `batteryIDsAssigned`,
`discoveredBatteryIDs` (lines 69-80). -/
structure Registry where
  batteries : Fin 4 → BatteryData
  activeBatteryCount : Nat
  protocolInitialized : Bool
  batteryIDsAssigned : Fin 4 → Bool
  discoveredBatteryIDs : Fin 4 → String
deriving DecidableEq

/-- The all-zero battery record produced by `setup()` (lines 103-109). -/
def blankBattery : BatteryData :=
  { voltage := 0, current := 0, power := 0, soc := 0, temperature := 0
    cellVoltages := fun _ => 0, current2 := 0, cycles := 0, valid := false
    lastUpdate := 0, batteryID := "" }

/-- The registry as `setup()` leaves it. -/
def emptyRegistry : Registry :=
  { batteries := fun _ => blankBattery, activeBatteryCount := 0
    protocolInitialized := false, batteryIDsAssigned := fun _ => false
    discoveredBatteryIDs := fun _ => "" }

/-! ## Frame decoder (`parseValenceBatteryData`, lines 422-481) -/

/-- The cell-voltage loop (lines 456-459):
`for (int i = 0; i < 6 && (20 + i * 2 + 1) < length; i++)`, updating
`cellVoltages[i]` from the little-endian 16-bit value at `20 + 2 i`
scaled by 0.001.  The loop runs at most 6 iterations, counted by `fuel`
(callers pass 6 with `i = 0`). -/
def updateCells (data : List Nat) (len : Nat) : Nat → Nat → (Fin 6 → ℚ) → (Fin 6 → ℚ)
  | 0, _, cv => cv
  | fuel + 1, i, cv =>
    if h : i < 6 ∧ 20 + i * 2 + 1 < len then
      updateCells data len fuel (i + 1)
        (Function.update cv ⟨i, h.1⟩ ((u16le data (20 + i * 2) : ℚ) * 0.001))
    else cv

/-- The function `parseValenceBatteryData(data, length, batteryIndex)` (lines 422-481):
returns the C `bool` result and the registry after the call.  `length` is
the byte count received, which equals `data.length` here because the model
passes the exact received prefix. -/
def parseValenceBatteryData (data : List Nat) (batteryIndex : Nat) (now : Nat)
    (st : Registry) : Bool × Registry :=
  if h : data.length < 20 ∨ 4 ≤ batteryIndex then (false, st)
  else if byteAt data 0 ≠ 0xFF then (false, st)
  else
    let idx : Fin 4 := ⟨batteryIndex, by omega⟩
    let b0 := st.batteries idx
    let voltage : ℚ := (u16le data 10 : ℚ) * 0.01
    let current : ℚ := (i16le data 12 : ℚ) * 0.1
    let soc : ℤ := if 15 < data.length then (byteAt data 15 : ℤ) else b0.soc
    let temperature : ℚ :=
      if 16 < data.length then (toInt8 (byteAt data 16) : ℚ) else b0.temperature
    let cellVoltages : Fin 6 → ℚ :=
      if 30 < data.length then updateCells data data.length 6 0 b0.cellVoltages
      else b0.cellVoltages
    let current2 : ℚ :=
      if 35 < data.length then (i16le data 34 : ℚ) * 0.1 else b0.current2
    let power : ℚ := voltage * |current|
    let b1 : BatteryData :=
      { b0 with voltage := voltage, current := current, power := power, soc := soc
                temperature := temperature, cellVoltages := cellVoltages
                current2 := current2, valid := true, lastUpdate := now }
    (true, { st with batteries := Function.update st.batteries idx b1 })

/-! ## Battery ID extraction (`parseBatteryID`, lines 322-336) -/

/-- The printable-ASCII test of line 330: `data[i] >= 0x20 && data[i] <= 0x7E`. -/
def printable (b : Nat) : Bool := decide (0x20 ≤ b ∧ b ≤ 0x7E)

/-- The character-collecting loop of lines 329-333:
`for (int i = 3; i < length - 2; i++) if (printable) batteryID += (char)data[i];`
modelled as characters appended to a list (a C `String` is its character
list).  The loop visits `i = 3, ..., length - 3`. -/
def idCharsLoop (data : List Nat) : List Char :=
  (List.range' 3 (data.length - 2 - 3)).foldl
    (fun cs i => if printable (byteAt data i) then cs ++ [Char.ofNat (byteAt data i)] else cs) []

/-- The function `parseBatteryID(data, length)` (lines 322-336): empty when fewer than
15 bytes, else the collected printable characters. -/
def parseBatteryID (data : List Nat) : String :=
  if data.length < 15 then "" else String.mk (idCharsLoop data)

/-- The identifier as the specification words it: the maximal run of
printable ASCII characters starting at offset 3 and ending 2 bytes before
the end of the buffer. -/
def specMaximalRunID (data : List Nat) : String :=
  String.mk ((((data.drop 3).take (data.length - 5)).takeWhile
    (fun b => printable (b % 256))).map (fun b => Char.ofNat (b % 256)))

/-- The identifier the code actually extracts, described non-operationally:
all printable ASCII characters at offsets 3 through `length - 3`, in order
(a subsequence, not a contiguous run). -/
def printableSubseqID (data : List Nat) : String :=
  String.mk ((((data.drop 3).take (data.length - 5)).filter
    (fun b => printable (b % 256))).map (fun b => Char.ofNat (b % 256)))

/-! ## Synthetic data generator (`generateTestData`, lines 483-516) -/

/-- One battery record written by the `generateTestData` loop body
(lines 489-512).  `rand k lo hi` is the k-th `random(lo, hi)` call of the
whole routine; battery `i` performs calls `11 i` through `11 i + 10` in
source order. -/
def testBattery (rand : Nat → Int → Int → Int) (now i : Nat)
    (b0 : BatteryData) : BatteryData :=
  let base := 11 * i
  let voltage : ℚ := 12.0 + (i : ℚ) * 0.1 + (rand base (-20) 20 : ℚ) * 0.01
  let current : ℚ := -8.0 + (rand (base + 1) (-40) 40 : ℚ) * 0.1
  let power : ℚ := |voltage * current|
  let soc0 : ℤ := 65 + (i : ℤ) * 8 + rand (base + 2) (-8) 8
  let temperature : ℚ := 23.0 + (rand (base + 3) (-5) 12 : ℚ)
  let avgCellVoltage : ℚ := voltage / 4.0
  let cellVoltages : Fin 6 → ℚ :=
    fun j => avgCellVoltage + (rand (base + 4 + j.val) (-30) 30 : ℚ) * 0.001
  let current2 : ℚ := current + (rand (base + 10) (-5) 5 : ℚ) * 0.01
  let soc : ℤ := if 100 < soc0 then 100 else if soc0 < 0 then 0 else soc0
  { b0 with voltage := voltage, current := current, power := power, soc := soc
            temperature := temperature, cellVoltages := cellVoltages
            current2 := current2, cycles := 180 + i * 25
            batteryID := "TEST_BAT_" ++ toString (i + 1)
            valid := true, lastUpdate := now }

/-- The routine `generateTestData()` (lines 483-516): sets `activeBatteryCount = 4`,
rewrites every slot, and sets `protocolInitialized = true`. -/
def generateTestData (rand : Nat → Int → Int → Int) (now : Nat)
    (st : Registry) : Registry :=
  { st with activeBatteryCount := 4
            batteries := fun idx => testBattery rand now idx.val (st.batteries idx)
            protocolInitialized := true }

/-! ## Discovery pass (`initializeValenceProtocol`, lines 217-320) -/

/-- The per-address response handling of lines 264-281: at least 10 bytes
available, read up to 64, header `ff 70`, non-empty parsed ID.  Returns
the ID accepted at this address, if any. -/
def discoveryAccept (avail : List Nat) : Option String :=
  if 10 ≤ avail.length then
    let response := avail.take 64
    if 10 ≤ response.length ∧ byteAt response 0 = 0xFF ∧ byteAt response 1 = 0x70 then
      let id := parseBatteryID response
      if 0 < id.length then some id else none
    else none
  else none

/-- The slot assignment performed on a valid discovery response
(lines 276-277): `discoveredBatteryIDs[foundBatteries] = batteryID;
batteries[foundBatteries].batteryID = batteryID;`. -/
def assignSlot (st : Registry) (f : Fin 4) (id : String) : Registry :=
  { st with
    discoveredBatteryIDs := Function.update st.discoveredBatteryIDs f id
    batteries := Function.update st.batteries f
      { st.batteries f with batteryID := id } }

/-- The scan loop of lines 247-290:
`for (batteryAddr = 0; batteryAddr <= 5 && foundBatteries < MAX_BATTERIES; batteryAddr++)`,
storing each accepted ID in `discoveredBatteryIDs[foundBatteries]` and
`batteries[foundBatteries].batteryID`.  Returns the visited address list,
the final `foundBatteries`, and the registry.  The loop runs at most 6
iterations, counted by `fuel` (the entry call passes 6 with `addr = 0`). -/
def discoveryScan (env : Nat → List Nat) :
    Nat → Nat → Nat → Registry → List Nat × Nat × Registry
  | 0, _, found, st => ([], found, st)
  | fuel + 1, addr, found, st =>
    if h : addr ≤ 5 ∧ found < 4 then
      match discoveryAccept (env addr) with
      | some id =>
        let r := discoveryScan env fuel (addr + 1) (found + 1) (assignSlot st ⟨found, h.2⟩ id)
        (addr :: r.1, r.2)
      | none =>
        let r := discoveryScan env fuel (addr + 1) found st
        (addr :: r.1, r.2)
    else ([], found, st)

/-- The state-clearing prologue of lines 221-226: every slot's `valid`
and `batteryIDsAssigned` flag reset, `discoveredBatteryIDs` emptied,
`activeBatteryCount = 0` (the slot's `batteryID` itself is not cleared). -/
def clearRegistry (st : Registry) : Registry :=
  { st with batteries := fun i => { st.batteries i with valid := false }
            batteryIDsAssigned := fun _ => false
            discoveredBatteryIDs := fun _ => ""
            activeBatteryCount := 0 }

/-- The routine `initializeValenceProtocol()` (lines 217-320): clear state, scan
addresses 0-5, then either commit `activeBatteryCount = foundBatteries`
and `protocolInitialized = true`, or (zero found) fall back to
`generateTestData` and set `protocolInitialized = true`. -/
def initializeValenceProtocol (env : Nat → List Nat)
    (rand : Nat → Int → Int → Int) (now : Nat) (st : Registry) : Registry :=
  let r := discoveryScan env 6 0 0 (clearRegistry st)
  if 0 < r.2.1 then
    { r.2.2 with activeBatteryCount := r.2.1, protocolInitialized := true }
  else
    { generateTestData rand now r.2.2 with protocolInitialized := true }

/-! ## Polling pass (`requestBatteryData` / `requestSingleBatteryData`,
lines 338-420) -/

/-- The function `requestSingleBatteryData(batteryIndex)` (lines 372-420).  `resp` is
the byte list the bus delivers before the timeout policy gives up; the
code accumulates at most 128 of them.  On fewer than 20 bytes with
`activeBatteryCount == 0` the code generates test data and reports
success; on other failures it leaves the registry untouched. -/
def requestSingleBatteryData (resp : List Nat) (batteryIndex : Nat) (now : Nat)
    (rand : Nat → Int → Int → Int) (st : Registry) : Bool × Registry :=
  if 4 ≤ batteryIndex then (false, st)
  else
    let response := resp.take 128
    if 20 ≤ response.length then
      parseValenceBatteryData response batteryIndex now st
    else if st.activeBatteryCount = 0 then
      (true, generateTestData rand now st)
    else (false, st)

/-- The per-slot loop of lines 350-360:
`for (int i = 0; i < activeBatteryCount; i++)` with the count re-read each
iteration.  `fuel` bounds the iterations; the entry call passes
`activeBatteryCount + 4`, enough because a loop body either leaves the
count unchanged or (only reachable from count 0, when the loop does not
run) sets it to 4. -/
def pollLoop (responses : Nat → List Nat) (now : Nat)
    (rand : Nat → Int → Int → Int) : Nat → Nat → Registry → Registry
  | 0, _, st => st
  | fuel + 1, i, st =>
    if i < st.activeBatteryCount then
      pollLoop responses now rand fuel (i + 1)
        (requestSingleBatteryData (responses i) i now rand st).2
    else st

/-- The routine `requestBatteryData()` (lines 338-370): a no-op unless
`protocolInitialized`; otherwise polls each slot below
`activeBatteryCount` in increasing order. -/
def requestBatteryData (responses : Nat → List Nat) (now : Nat)
    (rand : Nat → Int → Int → Int) (st : Registry) : Registry :=
  if st.protocolInitialized = false then st
  else pollLoop responses now rand (st.activeBatteryCount + 4) 0 st

/-! ## Read-timeout policy (lines 394-404)

The read loop `while (millis() < timeout && bytesReceived < 128)` starts
with `timeout = millis() + RESPONSE_TIMEOUT` (1000 ms) and on every
received byte executes `timeout = millis() + 100`.  `readDeadlinePairs`
abstracts one run over the chronological byte-arrival times: a byte
arriving at `t` is received iff `t` is before the deadline in force and
fewer than 128 bytes have been received; the pair records the deadline in
force before the byte and the deadline recomputed after it. -/

/-- Deadline trace of the read loop: `(before, after)` deadline pair per
received byte. -/
def readDeadlinePairs : Nat → Nat → List Nat → List (Nat × Nat)
  | _, _, [] => []
  | deadline, count, t :: ts =>
    if t < deadline ∧ count < 128 then
      (deadline, t + 100) :: readDeadlinePairs (t + 100) (count + 1) ts
    else []

/-- Deadline pairs for a whole response read started at time `start`:
initial deadline `start + RESPONSE_TIMEOUT` with `RESPONSE_TIMEOUT = 1000`. -/
def responseDeadlines (start : Nat) (arrivals : List Nat) : List (Nat × Nat) :=
  readDeadlinePairs (start + 1000) 0 arrivals

/-! ## Helper lemmas -/

lemma crcSpecRounds_eq (n : Nat) : ∀ c, crcSpecRounds c n = crcShift^[n] c := by
  induction n with
  | zero => intro c; rfl
  | succ n ih =>
    intro c
    rw [show crcSpecRounds c (n + 1) = crcSpecRounds (crcShift c) n from rfl,
      Function.iterate_succ_apply]
    exact ih _

lemma crcSpecGo_eq (l : List Nat) : ∀ c, crcSpecGo l c = l.foldl crcByte c := by
  induction l with
  | nil => intro c; rfl
  | cons b rest ih =>
    intro c
    rw [show crcSpecGo (b :: rest) c = crcSpecGo rest (crcSpecRounds (c ^^^ b % 256) 8) from rfl,
      ih, List.foldl_cons, crcSpecRounds_eq]
    rfl

lemma calculateModbusCRC_eq_spec (data : List Nat) :
    calculateModbusCRC data = crcSpec data :=
  (crcSpecGo_eq data 0xFFFF).symm

/-- The frame decoder evaluated on a rejected input returns failure and the
untouched registry. -/
lemma parse_reject (data : List Nat) (i now : Nat) (st : Registry)
    (h : data.length < 20 ∨ 4 ≤ i ∨ byteAt data 0 ≠ 0xFF) :
    parseValenceBatteryData data i now st = (false, st) := by
  by_cases h1 : data.length < 20 ∨ 4 ≤ i
  · rw [parseValenceBatteryData, dif_pos h1]
  · have h2 : byteAt data 0 ≠ 0xFF := by tauto
    rw [parseValenceBatteryData, dif_neg h1, if_pos h2]

/-! ## C4: the CRC engine and the CRC trailer of outgoing frames -/

/-- C4: `calculateModbusCRC` computes the MODBUS CRC-16 exactly as the
specification words the algorithm (seed `0xFFFF`, per byte XOR into the
low byte then 8 conditional shift steps); it is deterministic; and every
outgoing frame carries the CRC of its preceding bytes as its two trailing
bytes in little-endian order — the discovery poll frame, the data request
frame, and the 6-byte wake-up unit, of which the 12-byte wake-up sequence
is two copies. -/
theorem crc_modbus_correct :
    (∀ data, calculateModbusCRC data = crcSpec data) ∧
    (∀ d1 d2, d1 = d2 → calculateModbusCRC d1 = calculateModbusCRC d2) ∧
    (∀ addr, (buildPollFrame addr).length = 7 ∧
      (buildPollFrame addr).drop 5 =
        [calculateModbusCRC ((buildPollFrame addr).take 5) % 256,
         calculateModbusCRC ((buildPollFrame addr).take 5) / 256 % 256]) ∧
    (∀ slot, (buildDataRequest slot).length = 7 ∧
      (buildDataRequest slot).drop 5 =
        [calculateModbusCRC ((buildDataRequest slot).take 5) % 256,
         calculateModbusCRC ((buildDataRequest slot).take 5) / 256 % 256]) ∧
    (initSeq = initSeqHalf ++ initSeqHalf ∧
      initSeqHalf.drop 4 =
        [calculateModbusCRC (initSeqHalf.take 4) % 256,
         calculateModbusCRC (initSeqHalf.take 4) / 256 % 256]) := by
  refine ⟨calculateModbusCRC_eq_spec, fun d1 d2 h => by rw [h], fun addr => ⟨rfl, rfl⟩,
    fun slot => ⟨rfl, rfl⟩, rfl, by decide⟩

/-- Witness for C4 at concrete inputs. -/
theorem crc_modbus_correct_witness :
    calculateModbusCRC [0xFF, 0x50, 0x06, 0x00, 0x00] = crcSpec [0xFF, 0x50, 0x06, 0x00, 0x00] ∧
    calculateModbusCRC [0xFF] = calculateModbusCRC [0xFF] ∧
    (buildPollFrame 3).length = 7 ∧ (buildDataRequest 2).length = 7 :=
  ⟨crc_modbus_correct.1 _, crc_modbus_correct.2.1 [0xFF] [0xFF] rfl,
   (crc_modbus_correct.2.2.1 3).1, (crc_modbus_correct.2.2.2.1 2).1⟩

/-! ## C1: decoder success path -/

/-- C1: on a buffer of length at least 20 whose first byte is `0xFF` and a
slot index in range, the decoder sets voltage from the unsigned LE 16-bit
value at 10-11 times 0.01, current from the signed LE 16-bit value at
12-13 times 0.1, state of charge from the raw byte at 15, temperature from
the signed byte at 16, power to voltage times the absolute value of
current, marks the slot valid with the updated timestamp, and returns
success. -/
theorem decode_success_fields (data : List Nat) (i now : Nat) (st : Registry)
    (hlen : 20 ≤ data.length) (hhdr : byteAt data 0 = 0xFF) (hi : i < 4) :
    (parseValenceBatteryData data i now st).1 = true ∧
    ((parseValenceBatteryData data i now st).2.batteries ⟨i, hi⟩).voltage
        = (byteAt data 11 * 256 + byteAt data 10 : ℚ) * 0.01 ∧
    ((parseValenceBatteryData data i now st).2.batteries ⟨i, hi⟩).current
        = (i16le data 12 : ℚ) * 0.1 ∧
    ((parseValenceBatteryData data i now st).2.batteries ⟨i, hi⟩).soc
        = (byteAt data 15 : ℤ) ∧
    ((parseValenceBatteryData data i now st).2.batteries ⟨i, hi⟩).temperature
        = (toInt8 (byteAt data 16) : ℚ) ∧
    ((parseValenceBatteryData data i now st).2.batteries ⟨i, hi⟩).power
        = ((parseValenceBatteryData data i now st).2.batteries ⟨i, hi⟩).voltage
          * |((parseValenceBatteryData data i now st).2.batteries ⟨i, hi⟩).current| ∧
    ((parseValenceBatteryData data i now st).2.batteries ⟨i, hi⟩).valid = true ∧
    ((parseValenceBatteryData data i now st).2.batteries ⟨i, hi⟩).lastUpdate = now := by
  have h1 : ¬ (data.length < 20 ∨ 4 ≤ i) := by omega
  have h15 : 15 < data.length := by omega
  have h16 : 16 < data.length := by omega
  rw [parseValenceBatteryData, dif_neg h1]
  simp only [hhdr, ne_eq, not_true_eq_false, if_false, if_pos h15, if_pos h16,
    Function.update_same, u16le]
  norm_num [Function.update_same]

/-- Witness frame for the decoder claims: 20 bytes, header `0xFF`,
voltage bytes `88 13`, current bytes `50 00`, SOC byte `64`,
temperature byte `17`. -/
def sampleFrame : List Nat :=
  [0xFF, 0, 0, 0, 0, 0, 0, 0, 0, 0, 0x88, 0x13, 0x50, 0x00, 0, 0x64, 0x17, 0, 0, 0]

/-- Witness for C1: the sample frame decodes to 50.00 V, 8.0 A, 400 W,
SOC 100, 23 °C in slot 0. -/
theorem decode_success_fields_witness :
    20 ≤ sampleFrame.length ∧ byteAt sampleFrame 0 = 0xFF ∧
    (parseValenceBatteryData sampleFrame 0 5 emptyRegistry).1 = true ∧
    ((parseValenceBatteryData sampleFrame 0 5 emptyRegistry).2.batteries ⟨0, by omega⟩).voltage
      = (byteAt sampleFrame 11 * 256 + byteAt sampleFrame 10 : ℚ) * 0.01 :=
  ⟨by decide, by decide,
   (decode_success_fields sampleFrame 0 5 emptyRegistry (by decide) (by decide) (by omega)).1,
   (decode_success_fields sampleFrame 0 5 emptyRegistry (by decide) (by decide) (by omega)).2.1⟩

/-! ## C2: decoder rejection leaves the registry unmutated -/

/-- C2: for every buffer and slot index, the decoder returns failure and
leaves the registry entirely unmutated whenever the buffer is shorter than
20 bytes, the slot index is out of range, or the leading byte is not
`0xFF`. -/
theorem decode_reject_no_mutation (data : List Nat) (i now : Nat) (st : Registry)
    (h : data.length < 20 ∨ 4 ≤ i ∨ byteAt data 0 ≠ 0xFF) :
    parseValenceBatteryData data i now st = (false, st) :=
  parse_reject data i now st h

/-- Witness for C2: a 3-byte buffer is rejected without mutation. -/
theorem decode_reject_no_mutation_witness :
    (([0xFF, 0x01, 0x02] : List Nat).length < 20 ∨ 4 ≤ 0 ∨ byteAt [0xFF, 0x01, 0x02] 0 ≠ 0xFF) ∧
    parseValenceBatteryData [0xFF, 0x01, 0x02] 0 9 emptyRegistry = (false, emptyRegistry) :=
  ⟨by decide, decode_reject_no_mutation [0xFF, 0x01, 0x02] 0 9 emptyRegistry (by decide)⟩

/-! ## C3: guarded fields of the decoder -/

/-- Pointwise characterization of the cell-voltage loop: starting at `i`
with `i + fuel = 6`, cell `j` is overwritten exactly when `i ≤ j` and the
offset bound `20 + 2 j + 1 < len` holds (the loop's stop-at-first-failure
is equivalent because the bound is monotone in `j`). -/
lemma updateCells_apply (data : List Nat) (len : Nat) :
    ∀ fuel i cv (j : Fin 6), i + fuel = 6 →
    updateCells data len fuel i cv j =
      if i ≤ j.val ∧ 20 + j.val * 2 + 1 < len
      then (u16le data (20 + j.val * 2) : ℚ) * 0.001 else cv j := by
  intro fuel
  induction fuel with
  | zero =>
    intro i cv j hif
    have : ¬ (i ≤ j.val ∧ 20 + j.val * 2 + 1 < len) := by
      have := j.isLt; omega
    rw [updateCells, if_neg this]
  | succ fuel ih =>
    intro i cv j hif
    rw [updateCells]
    by_cases hg : i < 6 ∧ 20 + i * 2 + 1 < len
    · rw [dif_pos hg, ih (i + 1) _ j (by omega)]
      by_cases hj : j.val = i
      · have hji : j = ⟨i, hg.1⟩ := Fin.ext hj
        have hnot : ¬ (i + 1 ≤ j.val ∧ 20 + j.val * 2 + 1 < len) := by omega
        rw [if_neg hnot, hji, Function.update_same,
          if_pos (by constructor <;> omega : i ≤ (⟨i, hg.1⟩ : Fin 6).val ∧
            20 + (⟨i, hg.1⟩ : Fin 6).val * 2 + 1 < len)]
      · rw [Function.update_noteq (fun hc => hj (by simpa using congrArg Fin.val hc))]
        have heq : (i + 1 ≤ j.val ∧ 20 + j.val * 2 + 1 < len) ↔
            (i ≤ j.val ∧ 20 + j.val * 2 + 1 < len) := by omega
        by_cases hc : i ≤ j.val ∧ 20 + j.val * 2 + 1 < len
        · rw [if_pos (heq.mpr hc), if_pos hc]
        · rw [if_neg (fun hx => hc (heq.mp hx)), if_neg hc]
    · rw [dif_neg hg]
      have hi6 : i < 6 := by omega
      have : ¬ (i ≤ j.val ∧ 20 + j.val * 2 + 1 < len) := by omega
      rw [if_neg this]

/-- C3 (amended): when the decoder succeeds, `cellVoltages[i]` is
populated from the unsigned LE 16-bit value at `20 + 2 i` scaled by 0.001
exactly when the buffer length exceeds 30 AND the two source bytes lie
inside the buffer (`20 + 2 i + 1 < length`; all six cells need length at
least 32); `secondaryCurrent` is populated from the signed LE 16-bit value
at 34-35 scaled by 0.1 exactly when the length exceeds 35; every field
whose guard fails retains its previous value. -/
theorem decode_guarded_fields (data : List Nat) (i now : Nat) (st : Registry)
    (hlen : 20 ≤ data.length) (hhdr : byteAt data 0 = 0xFF) (hi : i < 4) :
    (parseValenceBatteryData data i now st).1 = true ∧
    (∀ j : Fin 6, ((parseValenceBatteryData data i now st).2.batteries ⟨i, hi⟩).cellVoltages j
        = if 30 < data.length ∧ 20 + j.val * 2 + 1 < data.length
          then (u16le data (20 + j.val * 2) : ℚ) * 0.001
          else (st.batteries ⟨i, hi⟩).cellVoltages j) ∧
    ((parseValenceBatteryData data i now st).2.batteries ⟨i, hi⟩).current2
        = if 35 < data.length then (i16le data 34 : ℚ) * 0.1
          else (st.batteries ⟨i, hi⟩).current2 := by
  have h1 : ¬ (data.length < 20 ∨ 4 ≤ i) := by omega
  rw [parseValenceBatteryData, dif_neg h1]
  simp only [hhdr, ne_eq, not_true_eq_false, if_false, Function.update_same]
  refine ⟨trivial, fun j => ?_, trivial⟩
  by_cases h30 : 30 < data.length
  · rw [if_pos h30, updateCells_apply data data.length 6 0 _ j (by omega)]
    simp only [Nat.zero_le, true_and]
    by_cases hb : 20 + j.val * 2 + 1 < data.length
    · rw [if_pos hb, if_pos ⟨h30, hb⟩]
    · rw [if_neg hb, if_neg (by tauto)]
  · rw [if_neg h30]
    have : ¬ (30 < data.length ∧ 20 + j.val * 2 + 1 < data.length) := by omega
    rw [if_neg this]

/-- A 31-byte frame: header `0xFF`, byte 30 equal to `0x10`; 31 bytes is
more than 30, yet cell 5 (offsets 30-31) is not populated because byte 31
is outside the buffer. -/
def cellFrame31 : List Nat :=
  [0xFF, 0, 0, 0, 0, 0, 0, 0, 0, 0, 0x88, 0x13, 0x50, 0x00, 0, 0x64, 0x17, 0, 0, 0,
   0x01, 0x0D, 0x02, 0x0D, 0x03, 0x0D, 0x04, 0x0D, 0x05, 0x0D, 0x10]

/-- A registry whose slot 0 holds a previous reading with
`cellVoltages[5] = 9`. -/
def cellRegistry : Registry :=
  { emptyRegistry with batteries := fun idx =>
      if idx = 0 then { blankBattery with cellVoltages := fun j => if j = 5 then 9 else 0 }
      else blankBattery }

/-- Counterexample to C3 as stated: on the 31-byte frame the decoder
succeeds and the length exceeds 30, yet `cellVoltages[5]` is not the
scaled value at offsets 30-31 — it retains its previous value 9. -/
theorem decode_cells_counterexample :
    30 < cellFrame31.length ∧
    (parseValenceBatteryData cellFrame31 0 3 cellRegistry).1 = true ∧
    ((parseValenceBatteryData cellFrame31 0 3 cellRegistry).2.batteries 0).cellVoltages 5 = 9 ∧
    ((parseValenceBatteryData cellFrame31 0 3 cellRegistry).2.batteries 0).cellVoltages 5 ≠
      (u16le cellFrame31 (20 + 5 * 2) : ℚ) * 0.001 := by
  refine ⟨by decide, rfl, rfl, ?_⟩
  rw [show ((parseValenceBatteryData cellFrame31 0 3 cellRegistry).2.batteries 0).cellVoltages 5
      = 9 from rfl,
    show u16le cellFrame31 (20 + 5 * 2) = 16 from rfl]
  norm_num

/-- Witness for the amended C3 on the 31-byte frame: cells 0-4 are
populated, cell 5 retains its previous value, and `secondaryCurrent`
(length guard 35 fails) retains its previous value. -/
theorem decode_guarded_fields_witness :
    20 ≤ cellFrame31.length ∧ byteAt cellFrame31 0 = 0xFF ∧
    (((parseValenceBatteryData cellFrame31 0 3 cellRegistry).2.batteries
        ⟨0, by omega⟩).cellVoltages 4
      = if 30 < cellFrame31.length ∧ 20 + (4 : Fin 6).val * 2 + 1 < cellFrame31.length
        then (u16le cellFrame31 (20 + (4 : Fin 6).val * 2) : ℚ) * 0.001
        else (cellRegistry.batteries ⟨0, by omega⟩).cellVoltages 4) ∧
    (((parseValenceBatteryData cellFrame31 0 3 cellRegistry).2.batteries ⟨0, by omega⟩).current2
      = if 35 < cellFrame31.length then (i16le cellFrame31 34 : ℚ) * 0.1
        else (cellRegistry.batteries ⟨0, by omega⟩).current2) :=
  ⟨by decide, by decide,
   (decode_guarded_fields cellFrame31 0 3 cellRegistry (by decide) (by decide) (by omega)).2.1 4,
   (decode_guarded_fields cellFrame31 0 3 cellRegistry (by decide) (by decide) (by omega)).2.2⟩

/-! ## C6: failed polls leave previously valid slots untouched -/

lemma byteAt_take (l : List Nat) (n i : Nat) (h : i < n) :
    byteAt (l.take n) i = byteAt l i := by
  simp [byteAt, List.getD, List.getElem?_take, h]

/-- A constant zero oracle standing for `random`, for concrete runs. -/
def rand0 : Nat → Int → Int → Int := fun _ _ _ => 0

/-- C6: if slot `i` is valid with some reading, a polling attempt for
slot `i` (which, in a pass, implies `i < activeBatteryCount`) that fails —
fewer than 20 bytes received, or a malformed response whose first byte is
not `0xFF` — reports failure and leaves the whole registry, in particular
slot `i`, its `valid` flag and its timestamp, unchanged. -/
theorem poll_failure_preserves_slot (resp : List Nat) (i now : Nat)
    (rand : Nat → Int → Int → Int) (st : Registry) (hi : i < 4)
    (hvalid : (st.batteries ⟨i, hi⟩).valid = true)
    (hactive : i < st.activeBatteryCount)
    (hfail : resp.length < 20 ∨ byteAt resp 0 ≠ 0xFF) :
    requestSingleBatteryData resp i now rand st = (false, st) ∧
    ((requestSingleBatteryData resp i now rand st).2.batteries ⟨i, hi⟩).valid = true := by
  have hi4 : ¬ 4 ≤ i := by omega
  have hact0 : ¬ st.activeBatteryCount = 0 := by omega
  have hmain : requestSingleBatteryData resp i now rand st = (false, st) := by
    rw [requestSingleBatteryData, if_neg hi4]
    by_cases h20 : 20 ≤ (resp.take 128).length
    · rw [if_pos h20]
      have hlen : ¬ resp.length < 20 := by
        simp only [List.length_take] at h20; omega
      have hhdr : byteAt (resp.take 128) 0 ≠ 0xFF := by
        rw [byteAt_take resp 128 0 (by omega)]; tauto
      exact parse_reject _ i now st (Or.inr (Or.inr hhdr))
    · rw [if_neg h20, if_neg hact0]
  exact ⟨hmain, by rw [hmain]; exact hvalid⟩

/-- A registry with one valid slot 0 and one active battery, as left by a
successful pass, for the C6 witness. -/
def validSlotRegistry : Registry :=
  { emptyRegistry with
      batteries := fun idx =>
        if idx = 0 then { blankBattery with valid := true, voltage := 12, lastUpdate := 44 }
        else blankBattery
      activeBatteryCount := 1, protocolInitialized := true }

/-- Witness for C6: an empty response (0 bytes) for valid slot 0 leaves
the registry unchanged. -/
theorem poll_failure_preserves_slot_witness :
    (validSlotRegistry.batteries ⟨0, by omega⟩).valid = true ∧
    0 < validSlotRegistry.activeBatteryCount ∧
    (([] : List Nat).length < 20 ∨ byteAt [] 0 ≠ 0xFF) ∧
    requestSingleBatteryData [] 0 77 rand0 validSlotRegistry = (false, validSlotRegistry) :=
  ⟨by decide, by decide, by decide,
   (poll_failure_preserves_slot [] 0 77 rand0 validSlotRegistry (by omega) (by decide)
      (by decide) (by decide)).1⟩

/-! ## C10: a polling pass over zero active batteries -/

/-- C10 (amended): a polling pass that starts with zero active batteries
performs no per-slot requests and leaves the registry unchanged — the
synthetic-data substitution sitting inside the per-slot request routine is
unreachable from the pass, because the pass only issues requests for slots
below `activeBatteryCount`. -/
theorem pollpass_zero_active (responses : Nat → List Nat) (now : Nat)
    (rand : Nat → Int → Int → Int) (st : Registry)
    (hzero : st.activeBatteryCount = 0) :
    requestBatteryData responses now rand st = st := by
  rw [requestBatteryData]
  by_cases hinit : st.protocolInitialized = false
  · rw [if_pos hinit]
  · rw [if_neg hinit, hzero]
    rw [show (0 : Nat) + 4 = 4 from rfl, pollLoop, if_neg (by omega)]

/-- A registry that is initialized but has zero active batteries, with
every slot invalid. -/
def zeroActiveRegistry : Registry :=
  { emptyRegistry with protocolInitialized := true }

/-- Counterexample to C10 as stated: on a pass starting from an
initialized registry with zero active batteries, the Synthetic Data
Generator is not invoked — the registry is returned unchanged and its
slots remain invalid rather than all four becoming populated and valid. -/
theorem pollpass_zero_counterexample :
    zeroActiveRegistry.activeBatteryCount = 0 ∧
    zeroActiveRegistry.protocolInitialized = true ∧
    requestBatteryData (fun _ => []) 0 rand0 zeroActiveRegistry = zeroActiveRegistry ∧
    ((requestBatteryData (fun _ => []) 0 rand0 zeroActiveRegistry).batteries 0).valid = false := by
  refine ⟨rfl, rfl, rfl, rfl⟩

/-- Witness for the amended C10. -/
theorem pollpass_zero_active_witness :
    zeroActiveRegistry.activeBatteryCount = 0 ∧
    requestBatteryData (fun _ => []) 0 rand0 zeroActiveRegistry = zeroActiveRegistry :=
  ⟨rfl, pollpass_zero_active (fun _ => []) 0 rand0 zeroActiveRegistry rfl⟩

/-! ## C9: the read-deadline policy -/

lemma readDeadlinePairs_le (ts : List Nat) : ∀ d count, ts.Sorted (· ≤ ·) →
    (∀ t ∈ ts, d ≤ t + 100) →
    ∀ p ∈ readDeadlinePairs d count ts, p.1 ≤ p.2 := by
  induction ts with
  | nil => intro d count _ _ p hp; simp [readDeadlinePairs] at hp
  | cons t ts ih =>
    intro d count hs hd p hp
    rw [readDeadlinePairs] at hp
    by_cases hg : t < d ∧ count < 128
    · rw [if_pos hg, List.mem_cons] at hp
      rcases hp with rfl | hp'
      · exact hd t (List.mem_cons_self t ts)
      · have hs' := List.sorted_cons.mp hs
        exact ih (t + 100) (count + 1) hs'.2
          (fun u hu => by have := hs'.1 u hu; omega) p hp'
    · rw [if_neg hg] at hp
      simp at hp

/-- C9 (amended): during a response read over chronologically ordered byte
arrivals, every byte after the first recomputes a deadline (arrival + 100
ms) that is never earlier than the deadline in force before it, so a
steadily streaming response is not truncated; the first byte, however, may
move the deadline earlier than the initial 1000 ms deadline. -/
theorem deadline_extension (start : Nat) (arrivals : List Nat)
    (hchrono : arrivals.Sorted (· ≤ ·)) :
    ∀ p ∈ (responseDeadlines start arrivals).tail, p.1 ≤ p.2 := by
  cases arrivals with
  | nil => intro p hp; simp [responseDeadlines, readDeadlinePairs] at hp
  | cons t ts =>
    intro p hp
    rw [responseDeadlines, readDeadlinePairs] at hp
    by_cases hg : t < start + 1000 ∧ 0 < 128
    · rw [if_pos hg, List.tail_cons] at hp
      have hs' := List.sorted_cons.mp hchrono
      exact readDeadlinePairs_le ts (t + 100) 1 hs'.2
        (fun u hu => by have := hs'.1 u hu; omega) p hp
    · rw [if_neg hg] at hp
      simp at hp

/-- Counterexample to C9 as stated: a first byte arriving right when the
read begins (time `start`, here 0) recomputes deadline 100, strictly
earlier than the 1000 ms deadline in force before it. -/
theorem deadline_counterexample :
    responseDeadlines 0 [0] = [(1000, 100)] ∧
    ¬ (∀ p ∈ responseDeadlines 0 [0], p.1 ≤ p.2) := by
  constructor
  · rfl
  · intro h
    have := h (1000, 100) (by rw [show responseDeadlines 0 [0] = [(1000, 100)] from rfl]; decide)
    omega

/-- Witness for the amended C9 on the arrival trace 0, 50, 120 ms. -/
theorem deadline_extension_witness :
    ([0, 50, 120] : List Nat).Sorted (· ≤ ·) ∧
    ∀ p ∈ (responseDeadlines 0 [0, 50, 120]).tail, p.1 ≤ p.2 :=
  ⟨by decide, deadline_extension 0 [0, 50, 120] (by decide)⟩

/-! ## C8: battery identifier extraction -/

lemma idChars_fold (data : List Nat) : ∀ (n start : Nat) (cs : List Char),
    (List.range' start n).foldl
      (fun cs i => if printable (byteAt data i) then cs ++ [Char.ofNat (byteAt data i)] else cs) cs
    = cs ++ (((data.drop start).take n).filter
        (fun b => printable (b % 256))).map (fun b => Char.ofNat (b % 256)) := by
  intro n
  induction n with
  | zero => intro start cs; simp
  | succ n ih =>
    intro start cs
    rw [List.range'_succ, List.foldl_cons]
    by_cases h : start < data.length
    · have hdrop : data.drop start = data[start] :: data.drop (start + 1) :=
        List.drop_eq_getElem_cons h
      have hbyte : byteAt data start = data[start] % 256 := by
        simp [byteAt, List.getD, List.getElem?_eq_getElem h]
      rw [hdrop, List.take_succ_cons, ih (start + 1)]
      by_cases hp : printable (data[start] % 256)
      · rw [List.filter_cons_of_pos (by simpa using hp), List.map_cons]
        simp only [hbyte, if_pos hp, List.append_assoc, List.singleton_append]
      · rw [List.filter_cons_of_neg (by simpa using hp)]
        simp only [hbyte, if_neg hp]
    · have hdrop : data.drop start = [] := List.drop_eq_nil_of_le (by omega)
      have hdrop' : data.drop (start + 1) = [] := List.drop_eq_nil_of_le (by omega)
      have hnone : data[start]? = none := List.getElem?_eq_none (by omega)
      have hbyte : byteAt data start = 0 := by
        simp [byteAt, List.getD, hnone]
      rw [ih (start + 1), hdrop, hdrop']
      simp [hbyte, printable]

/-- C8 (amended): for a discovery response buffer with header `0xFF 0x70`,
the extracted identifier is empty when the buffer is shorter than 15
bytes, and otherwise is the subsequence of all printable ASCII characters
at offsets 3 through `length - 3` — printable characters after a
non-printable one are still collected, so the result is not in general the
maximal run starting at offset 3. -/
theorem parseID_printable_subsequence (data : List Nat) (_h10 : 10 ≤ data.length)
    (_hh0 : byteAt data 0 = 0xFF) (_hh1 : byteAt data 1 = 0x70) :
    parseBatteryID data = if data.length < 15 then "" else printableSubseqID data := by
  rw [parseBatteryID]
  by_cases h15 : data.length < 15
  · rw [if_pos h15, if_pos h15]
  · rw [if_neg h15, if_neg h15, printableSubseqID]
    rw [idCharsLoop, idChars_fold data (data.length - 2 - 3) 3 [],
      show data.length - 2 - 3 = data.length - 5 from by omega, List.nil_append]

/-- A 16-byte discovery response with header `0xFF 0x70`, a non-printable
byte at offset 3 and the printable byte `0x41` (`A`) at offset 4. -/
def idCex : List Nat :=
  [0xFF, 0x70, 0x11, 0x00, 0x41, 0, 0, 0, 0, 0, 0, 0, 0, 0, 0x50, 0xB9]

/-- Counterexample to C8 as stated: on `idCex` the code extracts `"A"`,
but the maximal printable run starting at offset 3 is empty (offset 3 is
non-printable), so the extracted identifier is not that run. -/
theorem parseID_counterexample :
    10 ≤ idCex.length ∧ byteAt idCex 0 = 0xFF ∧ byteAt idCex 1 = 0x70 ∧
    parseBatteryID idCex = "A" ∧ specMaximalRunID idCex = "" ∧
    parseBatteryID idCex ≠ specMaximalRunID idCex := by
  refine ⟨by decide, by decide, by decide, by decide, by decide, by decide⟩

/-- Witness for the amended C8 on a well-formed 17-byte response holding
the identifier `CBB112810318`. -/
def idSample : List Nat :=
  [0xFF, 0x70, 0x11, 0x43, 0x42, 0x42, 0x31, 0x31, 0x32, 0x38, 0x31, 0x30, 0x33,
   0x31, 0x38, 0x50, 0xB9]

/-- Witness for the amended C8. -/
theorem parseID_printable_subsequence_witness :
    10 ≤ idSample.length ∧ byteAt idSample 0 = 0xFF ∧ byteAt idSample 1 = 0x70 ∧
    parseBatteryID idSample = if idSample.length < 15 then "" else printableSubseqID idSample :=
  ⟨by decide, by decide, by decide,
   parseID_printable_subsequence idSample (by decide) (by decide) (by decide)⟩

/-! ## Discovery pass characterization (C5, C7) -/

/-- The IDs of the valid responses among addresses `addr, ..., addr+fuel-1`,
in scan order. -/
def acceptedIDs (env : Nat → List Nat) (addr fuel : Nat) : List String :=
  (List.range' addr fuel).filterMap (fun a => discoveryAccept (env a))

lemma acceptedIDs_succ_some (env : Nat → List Nat) (addr fuel : Nat) (id : String)
    (hacc : discoveryAccept (env addr) = some id) :
    acceptedIDs env addr (fuel + 1) = id :: acceptedIDs env (addr + 1) fuel := by
  rw [acceptedIDs, List.range'_succ, List.filterMap_cons, hacc]
  rfl

lemma acceptedIDs_succ_none (env : Nat → List Nat) (addr fuel : Nat)
    (hacc : discoveryAccept (env addr) = none) :
    acceptedIDs env addr (fuel + 1) = acceptedIDs env (addr + 1) fuel := by
  rw [acceptedIDs, List.range'_succ, List.filterMap_cons, hacc]
  rfl

/-- Main characterization of the scan loop: starting at address `addr`
with `found` slots assigned, provided the remaining valid responses fit
in the registry, the loop accepts exactly the valid responses, assigns
their IDs to the next slots in response order, and changes nothing else. -/
lemma discoveryScan_found (env : Nat → List Nat) :
    ∀ fuel addr found (st : Registry), addr + fuel ≤ 6 →
      found + (acceptedIDs env addr fuel).length ≤ 4 →
      ((discoveryScan env fuel addr found st).2.1
          = found + (acceptedIDs env addr fuel).length) ∧
      (∀ j : Fin 4, (discoveryScan env fuel addr found st).2.2.batteries j =
        if found ≤ j.val ∧ j.val < found + (acceptedIDs env addr fuel).length
        then { st.batteries j with
               batteryID := (acceptedIDs env addr fuel).getD (j.val - found) "" }
        else st.batteries j) ∧
      ((discoveryScan env fuel addr found st).2.2.activeBatteryCount
          = st.activeBatteryCount) ∧
      ((discoveryScan env fuel addr found st).2.2.protocolInitialized
          = st.protocolInitialized) := by
  intro fuel
  induction fuel with
  | zero =>
    intro addr found st _ _
    refine ⟨by simp [discoveryScan, acceptedIDs], ?_, rfl, rfl⟩
    intro j
    rw [if_neg (by simp [acceptedIDs])]
    rfl
  | succ fuel ih =>
    intro addr found st h6 hcap
    have haddr : addr ≤ 5 := by omega
    by_cases hf : found < 4
    · rw [discoveryScan, dif_pos ⟨haddr, hf⟩]
      cases hacc : discoveryAccept (env addr) with
      | some id =>
        simp only [hacc]
        rw [acceptedIDs_succ_some env addr fuel id hacc] at hcap ⊢
        simp only [List.length_cons] at hcap ⊢
        obtain ⟨ih1, ih2, ih3, ih4⟩ := ih (addr + 1) (found + 1)
          (assignSlot st ⟨found, hf⟩ id) (by omega) (by omega)
        refine ⟨by rw [ih1]; omega, ?_,
          by rw [show (assignSlot st ⟨found, hf⟩ id).activeBatteryCount
              = st.activeBatteryCount from rfl] at ih3; exact ih3,
          by rw [show (assignSlot st ⟨found, hf⟩ id).protocolInitialized
              = st.protocolInitialized from rfl] at ih4; exact ih4⟩
        intro j
        rw [ih2 j]
        have hupd : ∀ x : Fin 4, (assignSlot st ⟨found, hf⟩ id).batteries x
            = Function.update st.batteries ⟨found, hf⟩
                { st.batteries ⟨found, hf⟩ with batteryID := id } x := fun _ => rfl
        by_cases hj : j.val = found
        · have hjf : j = ⟨found, hf⟩ := Fin.ext hj
          rw [if_neg (by omega), if_pos (by constructor <;> omega), hupd j, hjf,
            Function.update_same]
          have hz : found - found = 0 := by omega
          rw [show ((⟨found, hf⟩ : Fin 4) : Nat) - found = 0 from hz, List.getD_cons_zero]
        · have hne : j ≠ ⟨found, hf⟩ := fun hc => hj (by simpa using congrArg Fin.val hc)
          rw [hupd j, Function.update_noteq hne]
          by_cases hc : found ≤ j.val ∧ j.val < found + ((acceptedIDs env (addr + 1) fuel).length + 1)
          · have hc' : found + 1 ≤ j.val ∧
                j.val < found + 1 + (acceptedIDs env (addr + 1) fuel).length := by omega
            rw [if_pos hc', if_pos hc]
            have hsub : j.val - found = (j.val - (found + 1)) + 1 := by omega
            rw [hsub, List.getD_cons_succ]
          · rw [if_neg (by omega), if_neg hc]
      | none =>
        simp only [hacc]
        rw [acceptedIDs_succ_none env addr fuel hacc] at hcap ⊢
        exact ih (addr + 1) found st (by omega) hcap
    · rw [discoveryScan, dif_neg (by tauto)]
      have hlen : (acceptedIDs env addr (fuel + 1)).length = 0 := by omega
      refine ⟨?_, ?_, rfl, rfl⟩
      · show found = found + (acceptedIDs env addr (fuel + 1)).length
        omega
      · intro j
        rw [if_neg (by have := j.isLt; omega)]

/-- The scan visits a consecutive initial run of addresses starting at its
entry address. -/
lemma discoveryScan_visits (env : Nat → List Nat) :
    ∀ fuel addr found (st : Registry), ∃ k, k ≤ fuel ∧
      (discoveryScan env fuel addr found st).1 = List.range' addr k := by
  intro fuel
  induction fuel with
  | zero => intro addr found st; exact ⟨0, le_rfl, rfl⟩
  | succ fuel ih =>
    intro addr found st
    by_cases hg : addr ≤ 5 ∧ found < 4
    · rw [discoveryScan, dif_pos hg]
      cases hacc : discoveryAccept (env addr) with
      | some id =>
        simp only [hacc]
        obtain ⟨k, hk, hv⟩ := ih (addr + 1) (found + 1) (assignSlot st ⟨found, hg.2⟩ id)
        exact ⟨k + 1, by omega, by rw [List.range'_succ]; simp [hv]⟩
      | none =>
        simp only [hacc]
        obtain ⟨k, hk, hv⟩ := ih (addr + 1) found st
        exact ⟨k + 1, by omega, by rw [List.range'_succ]; simp [hv]⟩
    · rw [discoveryScan, dif_neg hg]
      exact ⟨0, by omega, rfl⟩

/-- If the scan gave up before exhausting its address range, it was
because the registry reached its capacity of 4. -/
lemma discoveryScan_stop (env : Nat → List Nat) :
    ∀ fuel addr found (st : Registry), found ≤ 4 → addr + fuel ≤ 6 →
      ((discoveryScan env fuel addr found st).1).length < fuel →
      (discoveryScan env fuel addr found st).2.1 = 4 := by
  intro fuel
  induction fuel with
  | zero => intro addr found st _ _ h; exact absurd h (Nat.not_lt_zero _)
  | succ fuel ih =>
    intro addr found st hf h6 hlen
    by_cases hg : addr ≤ 5 ∧ found < 4
    · rw [discoveryScan, dif_pos hg] at hlen ⊢
      cases hacc : discoveryAccept (env addr) with
      | some id =>
        simp only [hacc] at hlen ⊢
        exact ih (addr + 1) (found + 1) _ (by omega) (by omega) (by simpa using hlen)
      | none =>
        simp only [hacc] at hlen ⊢
        exact ih (addr + 1) found st hf (by omega) (by simpa using hlen)
    · rw [discoveryScan, dif_neg hg]
      have haddr : addr ≤ 5 := by omega
      have : ¬ found < 4 := fun hx => hg ⟨haddr, hx⟩
      show found = 4
      omega

/-! ## C5: discovery monotonicity -/

/-- C5 (amended): a discovery pass scans addresses 0-5 as a consecutive
increasing run, cut short only once the registry reaches its capacity of
4; and for every N with 1 ≤ N ≤ capacity, a pass receiving N valid
responses assigns their identifiers to slots 0..N-1 in response order
with `activeBatteryCount = N` afterwards.  (With N = 0 the synthetic
fallback sets `activeBatteryCount = 4` instead — see the
counterexample.) -/
theorem discovery_monotonic (env : Nat → List Nat) (rand : Nat → Int → Int → Int)
    (now : Nat) (st : Registry)
    (hN1 : 1 ≤ (acceptedIDs env 0 6).length) (hN4 : (acceptedIDs env 0 6).length ≤ 4) :
    ((initializeValenceProtocol env rand now st).activeBatteryCount
        = (acceptedIDs env 0 6).length) ∧
    (∀ j : Fin 4, j.val < (acceptedIDs env 0 6).length →
      ((initializeValenceProtocol env rand now st).batteries j).batteryID
        = (acceptedIDs env 0 6).getD j.val "") ∧
    ((initializeValenceProtocol env rand now st).protocolInitialized = true) ∧
    (∃ k, k ≤ 6 ∧ (discoveryScan env 6 0 0 (clearRegistry st)).1 = List.range' 0 k ∧
      (k < 6 → (discoveryScan env 6 0 0 (clearRegistry st)).2.1 = 4)) := by
  obtain ⟨hc1, hc2, hc3, hc4⟩ :=
    discoveryScan_found env 6 0 0 (clearRegistry st) (by omega) (by omega)
  have hfound : (discoveryScan env 6 0 0 (clearRegistry st)).2.1
      = (acceptedIDs env 0 6).length := by rw [hc1]; omega
  rw [initializeValenceProtocol]
  simp only []
  rw [hfound, if_pos (by omega)]
  refine ⟨rfl, fun j hj => ?_, rfl, ?_⟩
  · show ((discoveryScan env 6 0 0 (clearRegistry st)).2.2.batteries j).batteryID = _
    rw [hc2 j, if_pos ⟨Nat.zero_le _, by omega⟩]
    rfl
  · obtain ⟨k, hk, hv⟩ := discoveryScan_visits env 6 0 0 (clearRegistry st)
    refine ⟨k, hk, hv, fun hk6 => ?_⟩
    rw [← hfound]
    refine discoveryScan_stop env 6 0 0 (clearRegistry st) (by omega) (by omega) ?_
    rw [hv]
    simpa using hk6

/-- Counterexample to C5 as stated at N = 0: a pass receiving zero valid
responses ends with `activeBatteryCount = 4` (the synthetic fallback), not
0. -/
theorem discovery_zero_counterexample :
    acceptedIDs (fun _ => []) 0 6 = [] ∧
    (initializeValenceProtocol (fun _ => []) rand0 9 emptyRegistry).activeBatteryCount = 4 ∧
    ¬ ((initializeValenceProtocol (fun _ => []) rand0 9 emptyRegistry).activeBatteryCount
        = 0) := by
  have h4 : (initializeValenceProtocol (fun _ => []) rand0 9 emptyRegistry).activeBatteryCount
      = 4 := rfl
  exact ⟨rfl, h4, by rw [h4]; omega⟩

/-- A serial environment with valid discovery responses at addresses 1
and 3 only. -/
def env2 : Nat → List Nat :=
  fun a => if a = 1 then idSample else if a = 3 then idCex else []

/-- Witness for the amended C5 with N = 2 responses. -/
theorem discovery_monotonic_witness :
    1 ≤ (acceptedIDs env2 0 6).length ∧ (acceptedIDs env2 0 6).length ≤ 4 ∧
    (initializeValenceProtocol env2 rand0 9 emptyRegistry).activeBatteryCount
      = (acceptedIDs env2 0 6).length :=
  ⟨by decide, by decide,
   (discovery_monotonic env2 rand0 9 emptyRegistry (by decide) (by decide)).1⟩

/-! ## C7: synthetic fallback after an empty discovery pass -/

/-- C7: after a discovery pass that finds zero real batteries, the
Synthetic Data Generator has populated the registry: `activeBatteryCount`
is 4, all four slots are valid, and `protocolInitialized` is true. -/
theorem synthetic_fallback (env : Nat → List Nat) (rand : Nat → Int → Int → Int)
    (now : Nat) (st : Registry) (hzero : acceptedIDs env 0 6 = []) :
    ((initializeValenceProtocol env rand now st).activeBatteryCount = 4) ∧
    (∀ j : Fin 4, ((initializeValenceProtocol env rand now st).batteries j).valid = true) ∧
    ((initializeValenceProtocol env rand now st).protocolInitialized = true) := by
  have hlen : (acceptedIDs env 0 6).length = 0 := by rw [hzero]; rfl
  obtain ⟨hc1, _, _, _⟩ :=
    discoveryScan_found env 6 0 0 (clearRegistry st) (by omega) (by omega)
  have hfound : (discoveryScan env 6 0 0 (clearRegistry st)).2.1 = 0 := by omega
  rw [initializeValenceProtocol]
  simp only []
  rw [hfound, if_neg (by omega)]
  exact ⟨rfl, fun j => rfl, rfl⟩

/-- Witness for C7: the silent bus environment. -/
theorem synthetic_fallback_witness :
    acceptedIDs (fun _ => []) 0 6 = [] ∧
    (∀ j : Fin 4,
      ((initializeValenceProtocol (fun _ => []) rand0 21 emptyRegistry).batteries j).valid
        = true) :=
  ⟨rfl, (synthetic_fallback (fun _ => []) rand0 21 emptyRegistry rfl).2.1⟩

end ValenceRT
